import Mathlib

/-!
Verification of `build/documentation.py` (measurement-kit-headers).

The script is embedded shallowly: text is modelled as `List Char`, a file as a
`List (List Char)` of lines (each line keeping its trailing newline, as
produced by iterating over an opened file), the external `clang-format`
process as an abstract function `fmt : List Char → List Char`, and the file
system as a partial map `fs : List Char → Option (List (List Char))`.
-/

namespace Documentation

/-- Whitespace characters recognized by Python's argumentless
`str.strip` / `str.lstrip` (space, tab, newline, carriage return,
vertical tab, form feed). -/
def isPySpace (c : Char) : Bool :=
  c = ' ' || c = '\t' || c = '\n' || c = '\r' || c = '\x0b' || c = '\x0c'

/-- Python `str.lstrip()`: drop leading whitespace. -/
def lstrip (s : List Char) : List Char := s.dropWhile isPySpace

/-- Python `str.rstrip()`: drop trailing whitespace. -/
def rstrip (s : List Char) : List Char := (s.reverse.dropWhile isPySpace).reverse

/-- Python `str.strip()`: drop whitespace on both ends. -/
def pyStrip (s : List Char) : List Char := rstrip (lstrip s)

/-- Python `str.startswith(pat)`. -/
def startsWith (pat s : List Char) : Bool := pat.isPrefixOf s

/-- Worker for `replaceAll`, structurally recursive on a fuel argument.
The fuel starts at the length of the string, which bounds the number of
steps because every step consumes at least one character. -/
def replaceAllGo (pat repl : List Char) : Nat → List Char → List Char
  | 0, s => s
  | _ + 1, [] => []
  | fuel + 1, c :: rest =>
    if pat.isPrefixOf (c :: rest) then
      repl ++ replaceAllGo pat repl fuel (rest.drop (pat.length - 1))
    else
      c :: replaceAllGo pat repl fuel rest

/-- Python `str.replace(pat, repl)`: replace every non-overlapping
occurrence of `pat`, scanning left to right.  Only called with a
non-empty pattern in this development. -/
def replaceAll (pat repl s : List Char) : List Char :=
  if pat.isEmpty then s else replaceAllGo pat repl s.length s

def commentMark : List Char := "//".data

def includeMark : List Char := "#include".data

def spaceSep : List Char := " ".data

def blankSep : List Char := "\n\n".data

/-- The cleaned comment fragment of a raw line: `line.lstrip()` is known to
start with `//`; the source then does `line.replace("//", "")` followed by
`line.strip()`. -/
def cleanFrag (line : List Char) : List Char :=
  pyStrip (replaceAll commentMark [] (lstrip line))

/-- One iteration of the loop in `gather_comments`, on an `enumerate`d line.
State is `(paragraphs, current)`. -/
def gcStep (st : List (List Char) × List (List Char)) (p : Nat × List Char) :
    List (List Char) × List (List Char) :=
  if p.1 < 4 then st
  else if startsWith commentMark (lstrip p.2) then
    let cleaned := cleanFrag p.2
    let current := st.2 ++ [cleaned]
    if cleaned.isEmpty then (st.1 ++ [List.intercalate spaceSep current], [])
    else (st.1, current)
  else (st.1 ++ [List.intercalate spaceSep st.2], [])

/-- The epilogue of `gather_comments`: flush a non-empty buffer, drop falsy
(empty) paragraphs, join the survivors with blank lines. -/
def gcFinish (st : List (List Char) × List (List Char)) : List Char :=
  List.intercalate blankSep
    ((if st.2.isEmpty then st.1 else st.1 ++ [List.intercalate spaceSep st.2]).filter
      (fun e => !e.isEmpty))

/-- Embedding of `gather_comments(iterable)`. -/
def gather_comments (source : List (List Char)) : List Char :=
  gcFinish (source.enum.foldl gcStep ([], []))

/-- One iteration of the loop in `gather_code`: keep the line unless its
stripped form starts with `//` or with `#include`. -/
def gatherCodeStep (code : List (List Char)) (line : List Char) : List (List Char) :=
  if !(startsWith commentMark (pyStrip line)) && !(startsWith includeMark (pyStrip line)) then
    code ++ [line]
  else code

/-- The pre-formatter code body of `gather_code`: the retained lines joined
with no separator (Python `"".join(code)`). -/
def gather_code_body (source : List (List Char)) : List Char :=
  List.flatten (source.foldl gatherCodeStep [])

/-- Embedding of `gather_code(iterable)`: the code body piped through the
external formatter. -/
def gather_code (fmt : List Char → List Char) (source : List (List Char)) : List Char :=
  fmt (gather_code_body source)

/-- Embedding of `write_synopsis(source, dest)`: the bytes written to `dest`. -/
def write_synopsis (fmt : List Char → List Char) (source : List (List Char)) : List Char :=
  "# SYNOPSIS\n\n```C++\n".data ++ gather_code fmt source ++ "```\n\n".data

/-- Embedding of `write_description(source, dest)`: the bytes written to `dest`. -/
def write_description (source : List (List Char)) : List Char :=
  "# DESCRIPTION\n\n".data ++ gather_comments source ++ "\n\n".data

def includeSlash : List Char := "include/".data

def includeMk : List Char := "include/mk".data

def docApi : List Char := "doc/api".data

def hppExt : List Char := ".hpp".data

def hExt : List Char := ".h".data

def mdExt : List Char := ".md".data

/-- The normalized display name: `include_path.replace("include/", "")`. -/
def normalized_name (include_path : List Char) : List Char :=
  replaceAll includeSlash [] include_path

/-- The derived output path:
`include_path.replace("include/mk", "doc/api").replace(".hpp", ".md").replace(".h", ".md")`. -/
def output_path (include_path : List Char) : List Char :=
  replaceAll hExt mdExt (replaceAll hppExt mdExt (replaceAll includeMk docApi include_path))

/-- The `# NAME` section written first to the output file. -/
def nameSection (normalized : List Char) : List Char :=
  "# NAME\n\n".data ++ "`".data ++ normalized ++ "`".data ++ "\n\n".data

/-- The fixed `# LIBRARY` section written second to the output file. -/
def librarySection : List Char :=
  "# LIBRARY\n\nmeasurement-kit (`libmeasurement_kit`, `-lmeasurement_kit`)\n\n".data

/-- Outcome of `build_documentation_for_file`: the output path the script
opened for writing, the bytes it managed to write there, and whether the
build ran to completion or aborted when opening the input path failed. -/
structure BuildResult where
  outputPath : List Char
  written : List Char
  completed : Bool
  deriving DecidableEq

/-- Embedding of `build_documentation_for_file(include_path)`.  The source
opens the output file and writes the NAME and LIBRARY sections before it
opens the input path, so when reading the input fails (`fs` returns `none`)
the output file has already been created holding exactly those two
sections. -/
def build_documentation_for_file (fmt : List Char → List Char)
    (fs : List Char → Option (List (List Char))) (include_path : List Char) : BuildResult :=
  let header := nameSection (normalized_name include_path) ++ librarySection
  match fs include_path with
  | none => ⟨output_path include_path, header, false⟩
  | some lines =>
      ⟨output_path include_path,
        header ++ write_synopsis fmt lines ++ write_description lines, true⟩

def usageMessage : List Char := "usage: ./build/documentation.py <file>".data

/-- The `for arg in sys.argv[1:]` loop of `main`: build each file in order,
stopping at the first build whose input could not be read (an uncaught
exception aborts the whole run). -/
def runAll (fmt : List Char → List Char) (fs : List Char → Option (List (List Char))) :
    List (List Char) → List BuildResult
  | [] => []
  | p :: rest =>
    let b := build_documentation_for_file fmt fs p
    if b.completed then b :: runAll fmt fs rest else [b]

/-- Outcome of `main`: the process exit code, the message printed to the
error stream by `sys.exit`, and the per-file builds that actually ran. -/
structure MainResult where
  exitCode : Nat
  errMessage : Option (List Char)
  builds : List BuildResult
  deriving DecidableEq

/-- Embedding of `main()`.  `args` models `sys.argv[1:]`, so
`len(sys.argv) < 2` is `args.length < 1`; `sys.exit(msg)` prints `msg` to
stderr and exits with status 1. -/
def main (fmt : List Char → List Char) (fs : List Char → Option (List (List Char)))
    (args : List (List Char)) : MainResult :=
  if args.length < 1 then ⟨1, some usageMessage, []⟩
  else
    let bs := runAll fmt fs args
    ⟨if bs.all (fun b => b.completed) then 0 else 1, none, bs⟩

/-- A fixed 4-line banner, standing for the license/copyright block the
script skips; its contents never reach the description. -/
def banner : List (List Char) :=
  ["L1\n".data, "L2\n".data, "L3\n".data, "L4\n".data]

/-- Spec-level path helper: remove `pat` only when it is a leading segment
of `s`, leaving `s` unchanged otherwise. -/
def removeLeadingSeg (pat s : List Char) : List Char :=
  if pat.isPrefixOf s then s.drop pat.length else s

/-- A file system on which every open fails. -/
def noFs : List Char → Option (List (List Char)) := fun _ => none

/-! ### Helper lemmas -/

/-- The loop body of `gather_comments` once past the 4-line banner, where
the index no longer matters. -/
def gcStepD (st : List (List Char) × List (List Char)) (line : List Char) :
    List (List Char) × List (List Char) :=
  if startsWith commentMark (lstrip line) then
    let cleaned := cleanFrag line
    let current := st.2 ++ [cleaned]
    if cleaned.isEmpty then (st.1 ++ [List.intercalate spaceSep current], [])
    else (st.1, current)
  else (st.1 ++ [List.intercalate spaceSep st.2], [])

lemma intercalate_nil_list (sep : List Char) :
    List.intercalate sep ([] : List (List Char)) = [] := rfl

lemma intercalate_singleton_list (sep x : List Char) :
    List.intercalate sep [x] = x := by
  simp [List.intercalate, List.intersperse]

lemma intercalate_cons_ne_nil (sep a : List Char) (l : List (List Char))
    (ha : a ≠ []) : List.intercalate sep (a :: l) ≠ [] := by
  cases l with
  | nil => rw [intercalate_singleton_list]; exact ha
  | cons b t =>
    rw [List.intercalate, List.intersperse_cons_cons, List.flatten_cons]
    simp [List.append_eq_nil, ha]

lemma gcStep_ge (st : List (List Char) × List (List Char)) (n : Nat) (x : List Char)
    (h : ¬ n < 4) : gcStep st (n, x) = gcStepD st x := by
  simp [gcStep, gcStepD, h]

lemma foldl_gcStep_enumFrom (l : List (List Char)) : ∀ (n : Nat)
    (st : List (List Char) × List (List Char)),
    (List.enumFrom n l).foldl gcStep st = (l.drop (4 - n)).foldl gcStepD st := by
  induction l with
  | nil => intro n st; simp [List.enumFrom]
  | cons x xs ih =>
    intro n st
    by_cases h : n < 4
    · have hd : (x :: xs).drop (4 - n) = xs.drop (4 - (n + 1)) := by
        have : 4 - n = (4 - (n + 1)) + 1 := by omega
        rw [this, List.drop_succ_cons]
      have hskip : gcStep st (n, x) = st := by simp [gcStep, h]
      rw [List.enumFrom, List.foldl_cons, hskip, ih (n + 1) st, hd]
    · have h0 : 4 - n = 0 := by omega
      have h1 : 4 - (n + 1) = 0 := by omega
      rw [List.enumFrom, List.foldl_cons, gcStep_ge st n x h, h0, List.drop_zero,
        List.foldl_cons, ih (n + 1), h1, List.drop_zero]

/-- The banner skip of `gather_comments` amounts to folding the index-free
loop body over `source.drop 4`. -/
lemma gather_comments_eq_drop (source : List (List Char)) :
    gather_comments source = gcFinish ((source.drop 4).foldl gcStepD ([], [])) := by
  rw [gather_comments, List.enum, foldl_gcStep_enumFrom]

lemma foldl_gatherCodeStep (l : List (List Char)) : ∀ acc : List (List Char),
    l.foldl gatherCodeStep acc = acc ++ l.filter (fun line =>
      !(startsWith commentMark (pyStrip line)) && !(startsWith includeMark (pyStrip line))) := by
  induction l with
  | nil => intro acc; simp
  | cons x xs ih =>
    intro acc
    rw [List.foldl_cons, List.filter_cons, ih]
    by_cases h : (!(startsWith commentMark (pyStrip x)) && !(startsWith includeMark (pyStrip x))) = true
    · simp [gatherCodeStep, h]
    · simp only [Bool.not_eq_true] at h
      simp [gatherCodeStep, h]

/-- Folding the loop body over a run of non-blank comment lines only grows
the current-paragraph buffer by the cleaned fragments, in order. -/
lemma foldl_gcStepD_comments (cs : List (List Char)) :
    ∀ st : List (List Char) × List (List Char),
    (∀ l ∈ cs, startsWith commentMark (lstrip l) = true ∧ (cleanFrag l).isEmpty = false) →
    cs.foldl gcStepD st = (st.1, st.2 ++ cs.map cleanFrag) := by
  induction cs with
  | nil => intro st _; simp
  | cons x xs ih =>
    intro st h
    have hx := h x (List.mem_cons_self x xs)
    have hstep : gcStepD st x = (st.1, st.2 ++ [cleanFrag x]) := by
      simp [gcStepD, hx.1, hx.2]
    rw [List.foldl_cons, hstep, ih _ (fun l hl => h l (List.mem_cons_of_mem x hl))]
    simp

/-- Once every remaining line is a non-comment line, finishing the scan
yields exactly the paragraphs collected so far plus the flushed buffer
(the extra empty flushes are removed by the falsy-paragraph filter). -/
lemma gcFinish_noncomment_tail (rest : List (List Char)) :
    ∀ (ps cur : List (List Char)),
    (∀ l ∈ rest, startsWith commentMark (lstrip l) = false) →
    gcFinish (rest.foldl gcStepD (ps, cur)) =
      List.intercalate blankSep
        ((ps ++ [List.intercalate spaceSep cur]).filter (fun e => !e.isEmpty)) := by
  induction rest with
  | nil =>
    intro ps cur _
    cases cur with
    | nil => simp [gcFinish, List.filter_append, intercalate_nil_list]
    | cons a l => simp [gcFinish]
  | cons x xs ih =>
    intro ps cur h
    have hx := h x (List.mem_cons_self x xs)
    have hstep : gcStepD (ps, cur) x = (ps ++ [List.intercalate spaceSep cur], []) := by
      simp [gcStepD, hx]
    rw [List.foldl_cons, hstep, ih _ _ (fun l hl => h l (List.mem_cons_of_mem x hl))]
    simp [List.filter_append, intercalate_nil_list, List.filter_cons]

/-! ### Claims -/

/-- C1, counterexample: a comment line that appears after the first
non-comment line does contribute prose.  With post-banner lines
`int x;` then `// hello`, the description is `hello`, so dropping the
trailing comment line changes the description. -/
theorem c1_counterexample :
    gather_comments (banner ++ ["int x;\n".data, "// hello\n".data]) ≠
      gather_comments (banner ++ ["int x;\n".data]) := by decide

/-- C1, amended: what is true is that non-comment lines contribute nothing:
appending any line that is not a comment line leaves the description
unchanged.  Comment lines after a non-comment line, however, do
contribute further paragraphs (see the counterexample). -/
theorem c1_theorem (source : List (List Char)) (line : List Char)
    (h : startsWith commentMark (lstrip line) = false) :
    gather_comments (source ++ [line]) = gather_comments source := by
  rw [gather_comments_eq_drop (source ++ [line]), gather_comments_eq_drop source]
  by_cases hl : source.length < 4
  · rw [List.drop_eq_nil_of_le (i := 4) (by simp; omega),
      List.drop_eq_nil_of_le (i := 4) (by omega)]
  · rw [List.drop_append_of_le_length (by omega), List.foldl_append,
      List.foldl_cons, List.foldl_nil]
    set st := (source.drop 4).foldl gcStepD ([], []) with hst
    have hstep : gcStepD st line = (st.1 ++ [List.intercalate spaceSep st.2], []) := by
      simp [gcStepD, h]
    rw [hstep]
    by_cases hc : st.2.isEmpty
    · have h2 : st.2 = [] := List.isEmpty_iff.mp hc
      simp [gcFinish, h2, List.filter_append, intercalate_nil_list, List.filter_cons]
    · simp only [Bool.not_eq_true] at hc
      simp [gcFinish, hc]

/-- C1, witness for the amended theorem: appending the non-comment line
`int y;` to a header ending in a comment leaves the description unchanged. -/
theorem c1_witness :
    gather_comments ((banner ++ ["// w\n".data]) ++ ["int y;\n".data]) =
      gather_comments (banner ++ ["// w\n".data]) :=
  c1_theorem (banner ++ ["// w\n".data]) ("int y;\n".data) (by decide)

/-- C2, counterexample: on `// A`, `// B`, `//`, `// C`, `// D` the first
paragraph is not the string `A B`: the blank comment line's empty fragment
is appended to the buffer before the flush, so Python's `" ".join` leaves a
trailing space. -/
theorem c2_counterexample :
    gather_comments (banner ++
        ["// A\n".data, "// B\n".data, "//\n".data, "// C\n".data, "// D\n".data]) ≠
      "A B\n\nC D".data := by decide

/-- C2, amended: the extractor yields the two paragraphs `A B ` (with a
trailing space) and `C D`, joined by a blank line. -/
theorem c2_theorem :
    gather_comments (banner ++
        ["// A\n".data, "// B\n".data, "//\n".data, "// C\n".data, "// D\n".data]) =
      "A B \n\nC D".data := by decide

/-- C3, counterexample: a later `//` inside a comment line is not
preserved: `// see http://x` does not yield the fragment `see http://x`. -/
theorem c3_counterexample :
    gather_comments (banner ++ ["// see http://x\n".data]) ≠
      "see http://x".data := by decide

/-- C3, amended: `str.replace("//", "")` removes every occurrence of `//`,
so a `//` inside a URL is dropped as well: `// see http://x` yields the
fragment `see http:x`. -/
theorem c3_theorem :
    gather_comments (banner ++ ["// see http://x\n".data]) =
      "see http:x".data := by decide

/-- C4, counterexample: the display name is not obtained by removing only a
leading `include/` segment; `str.replace` removes every occurrence, so the
interior `include/` of `foo/include/bar.h` is removed too. -/
theorem c4_counterexample :
    normalized_name ("foo/include/bar.h".data) ≠
      removeLeadingSeg includeSlash ("foo/include/bar.h".data) := by decide

/-- C4, amended: every occurrence of `include/` is removed from the display
name, and the output path replaces every occurrence of `include/mk`, then
of `.hpp`, then of `.h` (not only prefixes or trailing extensions).  The
spec's example still holds: `include/mk/net/http.hpp` yields display name
`mk/net/http.hpp` and output path `doc/api/net/http.md`; but an interior
`include/` or a non-trailing `.h` is substituted as well. -/
theorem c4_theorem :
    normalized_name ("include/mk/net/http.hpp".data) = "mk/net/http.hpp".data ∧
    output_path ("include/mk/net/http.hpp".data) = "doc/api/net/http.md".data ∧
    normalized_name ("foo/include/bar.h".data) = "foo/bar.h".data ∧
    output_path ("include/mk/a.hxx".data) = "doc/api/a.mdxx".data := by decide

/-- C5: the pre-formatter code body is exactly the subsequence of lines
whose whitespace-trimmed form starts neither with `//` nor with
`#include`, kept verbatim, in order, concatenated with no separator. -/
theorem c5_theorem (source : List (List Char)) :
    gather_code_body source =
      List.flatten (source.filter (fun line =>
        !(startsWith commentMark (pyStrip line)) &&
          !(startsWith includeMark (pyStrip line)))) := by
  rw [gather_code_body, foldl_gatherCodeStep, List.nil_append]

/-- C6: a header with fewer than 4 lines yields an empty description. -/
theorem c6_theorem (source : List (List Char)) (h : source.length < 4) :
    gather_comments source = [] := by
  rw [gather_comments_eq_drop, List.drop_eq_nil_of_le (i := 4) (by omega)]
  rfl

/-- C6, witness: a 2-line header yields the empty description. -/
theorem c6_witness :
    gather_comments ["a\n".data, "b\n".data] = [] :=
  c6_theorem ["a\n".data, "b\n".data] (by decide)

/-- C7, counterexample: a header whose leading post-banner comment block
(`// A`) has no blank comment line before the first non-comment line can
still yield more than one paragraph, because a comment line after the code
line contributes another paragraph: with `// A`, `int x;`, `// B` the
description is `A`, a blank line, `B` — not the single paragraph `A`. -/
theorem c7_counterexample :
    gather_comments (banner ++ ["// A\n".data, "int x;\n".data, "// B\n".data]) =
        "A\n\nB".data ∧
      gather_comments (banner ++ ["// A\n".data, "int x;\n".data, "// B\n".data]) ≠
        "A".data := by decide

/-- C7, amended: if the post-banner lines consist of a non-empty run of
non-blank comment lines followed by non-comment lines only (no comment
line occurs after the first non-comment line), then the description is
exactly one paragraph: the run's cleaned fragments joined by single
spaces. -/
theorem c7_theorem (source cs rest : List (List Char))
    (hsplit : source.drop 4 = cs ++ rest)
    (hne : cs ≠ [])
    (hcs : ∀ l ∈ cs, startsWith commentMark (lstrip l) = true ∧ (cleanFrag l).isEmpty = false)
    (hrest : ∀ l ∈ rest, startsWith commentMark (lstrip l) = false) :
    gather_comments source = List.intercalate spaceSep (cs.map cleanFrag) := by
  rw [gather_comments_eq_drop, hsplit, List.foldl_append,
    foldl_gcStepD_comments cs ([], []) hcs, gcFinish_noncomment_tail rest _ _ hrest]
  obtain ⟨a, l, rfl⟩ : ∃ a l, cs = a :: l := by
    cases cs with
    | nil => exact absurd rfl hne
    | cons a l => exact ⟨a, l, rfl⟩
  have ha : cleanFrag a ≠ [] := by
    intro hnil
    have := (hcs a (List.mem_cons_self a l)).2
    rw [hnil] at this
    exact absurd this (by decide)
  have hnn : List.intercalate spaceSep ((a :: l).map cleanFrag) ≠ [] := by
    rw [List.map_cons]
    exact intercalate_cons_ne_nil spaceSep (cleanFrag a) (l.map cleanFrag) ha
  rw [List.nil_append, List.nil_append, List.filter_cons,
    if_pos (by simp only [List.map_cons] at hnn; simp [hnn]), List.filter_nil]
  exact intercalate_singleton_list blankSep _

def c7src : List (List Char) :=
  banner ++ ["// A\n".data, "// B.\n".data, "int x;\n".data, "\n".data]

def c7cs : List (List Char) := ["// A\n".data, "// B.\n".data]

def c7rest : List (List Char) := ["int x;\n".data, "\n".data]

/-- C7, witness for the amended theorem: the header with post-banner lines
`// A`, `// B.`, `int x;`, and a blank line yields the single paragraph
`A B.`. -/
theorem c7_witness :
    gather_comments c7src = List.intercalate spaceSep (c7cs.map cleanFrag) ∧
      gather_comments c7src = "A B.".data :=
  ⟨c7_theorem c7src c7cs c7rest (by decide) (by decide) (by decide) (by decide),
    by decide⟩

/-- C8: the per-file transformation is deterministic — with the external
formatter modelled as a fixed function and the file system as a fixed map,
two runs on the same input path (and the whole driver on the same argument
list) produce identical results. -/
theorem c8_theorem (fmt : List Char → List Char)
    (fs : List Char → Option (List (List Char)))
    (include_path : List Char) (args : List (List Char)) :
    build_documentation_for_file fmt fs include_path =
        build_documentation_for_file fmt fs include_path ∧
      main fmt fs args = main fmt fs args :=
  ⟨rfl, rfl⟩

/-- C9: invoked with zero file arguments, the driver exits with a non-zero
status, writes the usage message to the error stream, and processes no
input file (so no output file is written). -/
theorem c9_theorem (fmt : List Char → List Char)
    (fs : List Char → Option (List (List Char))) :
    (main fmt fs []).exitCode ≠ 0 ∧
      (main fmt fs []).errMessage = some usageMessage ∧
      (main fmt fs []).builds = [] :=
  ⟨Nat.one_ne_zero, rfl, rfl⟩

/-- C10: page building is not atomic with respect to input faults — the
output file is opened and the NAME and LIBRARY sections are written before
the input path is opened, so when reading the input path fails the output
file at the derived path has already been left behind holding exactly
those two sections. -/
theorem c10_theorem (fmt : List Char → List Char)
    (fs : List Char → Option (List (List Char))) (include_path : List Char)
    (h : fs include_path = none) :
    build_documentation_for_file fmt fs include_path =
      ⟨output_path include_path,
        nameSection (normalized_name include_path) ++ librarySection, false⟩ := by
  rw [build_documentation_for_file, h]

/-- C10, witness: on a file system where every open fails, building
`include/mk/net/http.hpp` leaves behind an output file holding exactly the
NAME and LIBRARY sections. -/
theorem c10_witness :
    build_documentation_for_file id noFs ("include/mk/net/http.hpp".data) =
      ⟨output_path ("include/mk/net/http.hpp".data),
        nameSection (normalized_name ("include/mk/net/http.hpp".data)) ++ librarySection,
        false⟩ :=
  c10_theorem id noFs ("include/mk/net/http.hpp".data) rfl

end Documentation
